import Mathlib

/-!
Shallow embedding of the OneDrive migration engine
(src/onedrive_migration.py, class OneDriveMigration) and proofs about it.

Conventions used throughout:
- Python strings are Lean String; Python lists are Lean List.
- The JSON configuration value CONFIG.get('excluded_paths', []) is passed
  explicitly as an excludedPaths argument.
- HTTP requests are modelled by explicit response values handed to the
  function under scrutiny; an exception raised by the requests library is a
  dedicated constructor.
- Progress state, statistics and the temp-download directory are fields of
  an explicit MigState record threaded through the recursion.
-/

namespace OneDrive

/-! Path helpers. -/

/-- Python path.strip of the slash character: removes leading and trailing
slash characters of a string (src line 134). -/
def stripSlashes (s : String) : String :=
  String.mk (((s.data.dropWhile (fun c => c = '/')).reverse.dropWhile
    (fun c => c = '/')).reverse)

/-- Python str.startswith on whole strings: the second argument read as a
character sequence is a prefix of the first. -/
def pyStartswith (s p : String) : Bool :=
  p.data.isPrefixOf s.data

/-- The f-string idiom used all over the source for extending a relative
path by a child name: the child name alone when the base path is empty
(Python falsy), otherwise base, slash, name (src lines 199, 342, 349). -/
def childPath (relPath nm : String) : String :=
  if relPath = "" then nm else relPath ++ "/" ++ nm

/-- OneDriveMigration.should_exclude_path (src lines 132-139): the path is
stripped of slashes and compared against every configured excluded path
with str.startswith or string equality. -/
def should_exclude_path (excludedPaths : List String) (path : String) : Bool :=
  let normalized := stripSlashes path
  excludedPaths.any (fun e => pyStartswith normalized e || normalized == e)

/-- The exclusion notion of the specification: the stripped path equals the
configured path, or lies strictly under it in the folder hierarchy, that is
the configured path followed by a slash is a prefix of it. -/
def nestedUnderOrEqual (path e : String) : Bool :=
  stripSlashes path == e || (e ++ "/").data.isPrefixOf (stripSlashes path).data

/-! Drive items and the listing request, get_drive_items (src lines 174-202).

The function issues one GET for the children of the folder.  A 401 response
triggers one token refresh and one retried GET; the retried response is the
second HttpOutcome argument.  response.raise_for_status raises for any
status in [400, 600), the surrounding except clause catches every request
exception and returns the empty list.  The JSON body's value array carries
the items of the answered page; the body's nextLink continuation field is
carried in the model but never read by the function, exactly as the source
never reads it. -/

structure DriveItem where
  id : String
  name : String
  isFolder : Bool
  size : Nat
  sha1Hash : String
deriving Repr, DecidableEq

/-- One HTTP exchange as seen by get_drive_items: either a response with a
status code, a page of items and a continuation-link flag, or an exception
raised by the requests library. -/
inductive HttpOutcome where
  | resp (status : Nat) (value : List DriveItem) (hasNextLink : Bool)
  | raise
deriving Repr, DecidableEq

/-- The listing filter of get_drive_items (src line 199): drop every item
whose extended path is excluded. -/
def filterListing (excludedPaths : List String) (path : String)
    (items : List DriveItem) : List DriveItem :=
  items.filter (fun item => !should_exclude_path excludedPaths (childPath path item.name))

/-- OneDriveMigration.get_drive_items (src lines 174-202), over explicit
response values: first is the answer of the initial GET, retryResp the
answer of the single GET retried after a 401 token refresh.  Any raised
request exception, including the one produced by raise_for_status on a
status in [400, 600), lands in the except clause, which returns []. -/
def get_drive_items (excludedPaths : List String) (path : String)
    (first retryResp : HttpOutcome) : List DriveItem :=
  match first with
  | .raise => []
  | .resp status value _hasNextLink =>
    if status = 401 then
      match retryResp with
      | .raise => []
      | .resp s2 v2 _ =>
        if 400 ≤ s2 && s2 < 600 then []
        else filterListing excludedPaths path v2
    else if 400 ≤ status && status < 600 then []
    else filterListing excludedPaths path value

/-- The server side of a paginated listing: the pages of a folder listing
in server order.  The answer to the initial GET carries the first page and
a continuation link exactly when further pages exist. -/
def pagesResponse (pages : List (List DriveItem)) : HttpOutcome :=
  .resp 200 (pages.headD []) (decide (1 < pages.length))

/-- Modelled from the spec: list_children follows pagination continuation
tokens until they are exhausted and returns the concatenation of all pages
in server-provided order.  No code under src implements this; it is the
comparator for the pagination claim. -/
def spec_list_children (pages : List (List DriveItem)) : List DriveItem :=
  pages.flatten

/-- A request interaction that the control flow of get_drive_items treats
as a persistent failure: a raised exception, an error status other than
401, or a 401 whose single post-refresh retry again raises or answers with
an error status. -/
def failsDefinitively (first retryResp : HttpOutcome) : Bool :=
  match first with
  | .raise => true
  | .resp s _ _ =>
    if s = 401 then
      match retryResp with
      | .raise => true
      | .resp s2 _ _ => 400 ≤ s2 && s2 < 600
    else 400 ≤ s && s < 600

/-! The transfer retry loops (src lines 225-274).

download_file and upload_file each run a for-attempt-in-range(3) loop: a
successful attempt returns immediately; a failed attempt on the last index
returns the failure value; otherwise the loop sleeps 2 ** attempt seconds
and tries again.  The model takes the per-attempt outcome as a Bool-valued
function of the attempt index and returns, next to the Python return
value, the number of attempts performed and the list of sleep durations,
so that the retry schedule is part of the observable result. -/

/-- The body of the download retry loop of download_file (src lines
232-248). attempt is the current index, the last argument the number of
remaining iterations; max_retries = attempt + remaining throughout, so the
last loop index is reached exactly when remaining is 1. -/
def download_attempts (ok : Nat → Bool) : Nat → Nat → Bool × Nat × List Nat
  | _, 0 => (false, 0, [])
  | attempt, remaining + 1 =>
    if ok attempt then (true, 1, [])
    else if remaining = 0 then (false, 1, [])
    else
      let r := download_attempts ok (attempt + 1) remaining
      (r.1, r.2.1 + 1, 2 ^ attempt :: r.2.2)

/-- OneDriveMigration.download_file (src lines 225-248): max_retries = 3,
first attempt index 0; returns False, never raises, when every attempt
fails. -/
def download_file (ok : Nat → Bool) : Bool × Nat × List Nat :=
  download_attempts ok 0 3

/-- The body of the upload retry loop of upload_file (src lines 262-274);
identical control flow to the download loop, but the Python return value is
the response JSON on success and None on exhaustion, modelled as an Option
(the uploaded item metadata abstracted to Unit). -/
def upload_attempts (ok : Nat → Bool) : Nat → Nat → Option Unit × Nat × List Nat
  | _, 0 => (none, 0, [])
  | attempt, remaining + 1 =>
    if ok attempt then (some (), 1, [])
    else if remaining = 0 then (none, 1, [])
    else
      let r := upload_attempts ok (attempt + 1) remaining
      (r.1, r.2.1 + 1, 2 ^ attempt :: r.2.2)

/-- OneDriveMigration.upload_file (src lines 250-274): the create_folder
call before the loop does not influence the retry schedule; max_retries =
3, returns None, never raises, when every attempt fails. -/
def upload_file (ok : Nat → Bool) : Option Unit × Nat × List Nat :=
  upload_attempts ok 0 3

/-! Shared helper lemmas. -/

/-- Equality to a configured path, or lying under it with a slash, implies
the startswith test of should_exclude_path fires. -/
lemma should_exclude_of_nested {excludedPaths : List String} {path e : String}
    (he : e ∈ excludedPaths) (hn : nestedUnderOrEqual path e = true) :
    should_exclude_path excludedPaths path = true := by
  unfold nestedUnderOrEqual at hn
  unfold should_exclude_path
  simp only [List.any_eq_true]
  refine ⟨e, he, ?_⟩
  rcases Bool.or_eq_true_iff.mp hn with h | h
  · simp [beq_iff_eq.mp h]
  · have hpre : (e ++ "/").data <+: (stripSlashes path).data :=
      List.isPrefixOf_iff_prefix.mp h
    have hdata : (e ++ "/").data = e.data ++ ("/" : String).data := by
      simp [String.data_append]
    have : e.data <+: (stripSlashes path).data := by
      refine List.IsPrefix.trans ?_ hpre
      rw [hdata]
      exact List.prefix_append _ _
    simp [pyStartswith, List.isPrefixOf_iff_prefix.mpr this]

/-! Claim theorems for the listing, exclusion and retry layers. -/

/-- Two concrete files on two distinct listing pages. -/
def itemA : DriveItem := ⟨"id1", "a.txt", false, 1, "ha"⟩

/-- Second concrete file, sitting on the second listing page. -/
def itemB : DriveItem := ⟨"id2", "b.txt", false, 2, "hb"⟩

/-- C1 counterexample: for a listing of two continuation pages the server
answers the initial GET with the first page and a continuation link, but
get_drive_items returns only that first page, omitting the second page,
instead of the concatenation of all pages that the claim asserts. -/
theorem claim_C1_counterexample :
    get_drive_items [] "" (pagesResponse [[itemA], [itemB]]) .raise = [itemA] ∧
    spec_list_children [[itemA], [itemB]] = [itemA, itemB] ∧
    get_drive_items [] "" (pagesResponse [[itemA], [itemB]]) .raise ≠
      spec_list_children [[itemA], [itemB]] := by
  refine ⟨?_, by simp [spec_list_children], ?_⟩ <;>
    simp [get_drive_items, pagesResponse, filterListing, should_exclude_path,
      spec_list_children, itemA, itemB]

/-- C1 amended: get_drive_items issues a single listing request and returns
exactly the exclusion-filtered first page; whatever further continuation
pages the listing has, their items are omitted and the continuation link is
never followed. -/
theorem claim_C1_amended (excludedPaths : List String) (path : String)
    (firstPage : List DriveItem) (rest : List (List DriveItem))
    (retryResp : HttpOutcome) :
    get_drive_items excludedPaths path (pagesResponse (firstPage :: rest)) retryResp =
      filterListing excludedPaths path firstPage := by
  simp [get_drive_items, pagesResponse]

/-- C3: a download or upload whose underlying request fails on every
attempt performs exactly 3 attempts, sleeps 1 then 2 seconds between them
(the backoff delay doubling), and returns the failure value False
respectively None instead of raising. -/
theorem claim_C3_retry (okD okU : Nat → Bool)
    (hD : ∀ i, okD i = false) (hU : ∀ i, okU i = false) :
    download_file okD = (false, 3, [1, 2]) ∧
    upload_file okU = (none, 3, [1, 2]) := by
  constructor
  · simp [download_file, download_attempts, hD]
  · simp [upload_file, upload_attempts, hU]

/-- C3 witness at the constantly failing attempt function. -/
theorem claim_C3_witness :
    (∀ i : Nat, (fun _ : Nat => false) i = false) ∧
    download_file (fun _ : Nat => false) = (false, 3, [1, 2]) ∧
    upload_file (fun _ : Nat => false) = (none, 3, [1, 2]) :=
  ⟨fun _ => rfl,
    (claim_C3_retry (fun _ => false) (fun _ => false)
      (fun _ => rfl) (fun _ => rfl)).1,
    (claim_C3_retry (fun _ => false) (fun _ => false)
      (fun _ => rfl) (fun _ => rfl)).2⟩

/-- C4 counterexample: with the single configured excluded path foo, the
path foobar is excluded by should_exclude_path although it neither equals
foo nor is nested under it as a folder-hierarchy descendant. -/
theorem claim_C4_counterexample :
    should_exclude_path ["foo"] "foobar" = true ∧
    ¬ ∃ e ∈ ["foo"], nestedUnderOrEqual "foobar" e = true := by
  constructor
  · decide
  · decide

/-- C4 amended: should_exclude_path returns true exactly when the path,
after stripping slashes, has some configured excluded path as a leading
character-string prefix.  Every path equal to or nested under a configured
path is therefore excluded, but so is any path merely sharing that leading
string. -/
theorem claim_C4_amended (excludedPaths : List String) (path : String) :
    should_exclude_path excludedPaths path = true ↔
      ∃ e ∈ excludedPaths, e.data <+: (stripSlashes path).data := by
  unfold should_exclude_path
  simp only [List.any_eq_true, Bool.or_eq_true_iff]
  constructor
  · rintro ⟨e, he, h | h⟩
    · exact ⟨e, he, List.isPrefixOf_iff_prefix.mp h⟩
    · exact ⟨e, he, by rw [beq_iff_eq.mp h]⟩
  · rintro ⟨e, he, h⟩
    exact ⟨e, he, Or.inl (List.isPrefixOf_iff_prefix.mpr h)⟩

/-- C8 counterexample: when the initial listing GET raises and so does the
post-refresh retry, get_drive_items returns the empty list, the very value
it returns for a successfully listed empty folder, so the persistent
failure is not surfaced to the caller. -/
theorem claim_C8_counterexample :
    get_drive_items [] "docs" .raise .raise = [] ∧
    get_drive_items [] "docs" (.resp 200 [] false) .raise = [] ∧
    get_drive_items [] "docs" .raise .raise =
      get_drive_items [] "docs" (.resp 200 [] false) .raise := by
  refine ⟨rfl, ?_, ?_⟩ <;> simp [get_drive_items, filterListing]

/-- C8 amended: on any persistently failing listing interaction, a raised
exception or an error status not cured by the single retry after a 401
token refresh, get_drive_items swallows the error and returns the empty
list, indistinguishable from the value returned for an empty folder. -/
theorem claim_C8_amended (excludedPaths : List String) (path : String)
    (first retryResp : HttpOutcome)
    (h : failsDefinitively first retryResp = true) :
    get_drive_items excludedPaths path first retryResp = [] ∧
    get_drive_items excludedPaths path first retryResp =
      get_drive_items excludedPaths path (.resp 200 [] false) retryResp := by
  have hempty : get_drive_items excludedPaths path (.resp 200 [] false) retryResp = [] := by
    simp [get_drive_items, filterListing]
  have hfail : get_drive_items excludedPaths path first retryResp = [] := by
    cases first with
    | raise => rfl
    | resp s v nl =>
      by_cases h401 : s = 401
      · subst h401
        cases retryResp with
        | raise => rfl
        | resp s2 v2 nl2 =>
          have h2 : (400 ≤ s2 && s2 < 600) = true := by
            simpa [failsDefinitively] using h
          simp [get_drive_items, h2]
      · have h2 : (400 ≤ s && s < 600) = true := by
          simpa [failsDefinitively, h401] using h
        simp [get_drive_items, h401, h2]
  exact ⟨hfail, hfail.trans hempty.symm⟩

/-- C8 witness at a concrete persistently failing interaction: a 401
answer whose retried request answers 503. -/
theorem claim_C8_witness :
    failsDefinitively (.resp 401 [] false) (.resp 503 [] false) = true ∧
    (get_drive_items ["x"] "docs" (.resp 401 [] false) (.resp 503 [] false) = [] ∧
      get_drive_items ["x"] "docs" (.resp 401 [] false) (.resp 503 [] false) =
        get_drive_items ["x"] "docs" (.resp 200 [] false) (.resp 503 [] false)) :=
  ⟨by decide,
    claim_C8_amended ["x"] "docs" (.resp 401 [] false) (.resp 503 [] false) (by decide)⟩

/-! The verifier (src lines 276-291 and 360-421).

verify_complete_migration flattens the source tree and the destination
subtree into path-to-item dictionaries through its inner get_all_items
walk; the model takes those two flat maps directly, as association lists
from relative path to the provider sha1 hash of the file, the empty string
standing for an absent hash exactly as in get_file_hash (src line 130).
verify_file_migration fetches the destination item at a path and compares
the two provider hashes with string equality; a non-200 destination answer
(the path does not exist) yields False. -/

/-- Dictionary lookup of the hash stored at a path; none when the path is
absent.  The maps produced by get_all_items have unique keys, so taking
the first matching entry agrees with the Python dict. -/
def lookupHash (items : List (String × String)) (p : String) : Option String :=
  (items.find? (fun kv => kv.1 == p)).map (fun kv => kv.2)

/-- OneDriveMigration.verify_file_migration (src lines 276-291): the
source hash (get_file_hash of the source item, sourceHash here) equals the
destination item's hash; False when the destination path does not answer
200. -/
def verify_file_migration (sourceHash : String)
    (destItems : List (String × String)) (destPath : String) : Bool :=
  match lookupHash destItems destPath with
  | some destHash => sourceHash == destHash
  | none => false

/-- The verification_results dictionary of verify_complete_migration
(src lines 383-388). -/
structure VerificationResults where
  total_files : Nat
  verified_files : Nat
  missing_files : List String
  mismatched_files : List String
deriving Repr, DecidableEq

/-- The comparison loop of verify_complete_migration (src lines 390-397):
for each source path, absent destination path means missing, a failing
verify_file_migration means mismatched, otherwise the verified counter is
incremented. -/
def verifyItems (destItems : List (String × String)) (destBase : String) :
    List (String × String) → VerificationResults → VerificationResults
  | [], acc => acc
  | (sourcePath, sourceHash) :: rest, acc =>
    let destPath := destBase ++ sourcePath
    let acc :=
      if (lookupHash destItems destPath).isNone then
        { acc with missing_files := acc.missing_files ++ [sourcePath] }
      else if ! verify_file_migration sourceHash destItems destPath then
        { acc with mismatched_files := acc.mismatched_files ++ [sourcePath] }
      else
        { acc with verified_files := acc.verified_files + 1 }
    verifyItems destItems destBase rest acc

/-- OneDriveMigration.verify_complete_migration (src lines 360-421), from
the flattened source and destination maps and the stripped destination
folder name: the results record and the returned Boolean, which is the
equality of the verified counter with the total source file count. -/
def verify_complete_migration (sourceItems destItems : List (String × String))
    (destFolder : String) : VerificationResults × Bool :=
  let destBase := if destFolder = "" then "" else destFolder ++ "/"
  let results := verifyItems destItems destBase sourceItems
    ⟨sourceItems.length, 0, [], []⟩
  (results, results.verified_files == results.total_files)

/-- The three-way classification the loop body of
verify_complete_migration applies to one source entry. -/
inductive VClass where
  | missing
  | mismatched
  | verified
deriving Repr, DecidableEq

/-- The classification of one source entry, read off the loop body. -/
def classifySource (destItems : List (String × String)) (destBase : String)
    (kv : String × String) : VClass :=
  let destPath := destBase ++ kv.1
  if (lookupHash destItems destPath).isNone then .missing
  else if ! verify_file_migration kv.2 destItems destPath then .mismatched
  else .verified

/-- The verification loop is the per-entry classification folded over the
source list: each bucket receives exactly the entries of its class, in
source order. -/
lemma verifyItems_eq (destItems : List (String × String)) (destBase : String)
    (l : List (String × String)) (acc : VerificationResults) :
    verifyItems destItems destBase l acc =
      { total_files := acc.total_files,
        verified_files := acc.verified_files +
          (l.filter (fun kv => classifySource destItems destBase kv == .verified)).length,
        missing_files := acc.missing_files ++
          (l.filter (fun kv => classifySource destItems destBase kv == .missing)).map Prod.fst,
        mismatched_files := acc.mismatched_files ++
          (l.filter (fun kv => classifySource destItems destBase kv == .mismatched)).map Prod.fst } := by
  induction l generalizing acc with
  | nil => simp [verifyItems]
  | cons kv rest ih =>
    obtain ⟨p, h⟩ := kv
    by_cases h1 : (lookupHash destItems (destBase ++ p)).isNone
    · have hc : classifySource destItems destBase (p, h) = .missing := by
        simp [classifySource, h1]
      simp [verifyItems, ih, h1, List.filter_cons, hc]
    · by_cases h2 : verify_file_migration h destItems (destBase ++ p)
      · have hc : classifySource destItems destBase (p, h) = .verified := by
          simp [classifySource, h1, h2]
        simp [verifyItems, ih, h1, h2, List.filter_cons, hc,
          Nat.add_assoc, Nat.add_comm 1]
      · have hc : classifySource destItems destBase (p, h) = .mismatched := by
          simp [classifySource, h1, h2]
        simp [verifyItems, ih, h1, h2, List.filter_cons, hc]

/-- Each source entry lands in exactly one bucket, so the three bucket
sizes sum to the length of the source list. -/
lemma classify_partition (destItems : List (String × String)) (destBase : String)
    (l : List (String × String)) :
    (l.filter (fun kv => classifySource destItems destBase kv == .verified)).length +
      (l.filter (fun kv => classifySource destItems destBase kv == .missing)).length +
      (l.filter (fun kv => classifySource destItems destBase kv == .mismatched)).length
      = l.length := by
  induction l with
  | nil => simp
  | cons kv rest ih =>
    cases hc : classifySource destItems destBase kv <;>
      simp [List.filter_cons, hc, ← ih] <;> omega

/-- In a list with pairwise distinct keys, a key determines its value. -/
lemma value_of_nodup_keys {l : List (String × String)}
    (hnd : (l.map Prod.fst).Nodup) {p h h' : String}
    (h1 : (p, h) ∈ l) (h2 : (p, h') ∈ l) : h = h' := by
  induction l with
  | nil => cases h1
  | cons kv rest ih =>
    simp only [List.map_cons, List.nodup_cons] at hnd
    rcases List.mem_cons.mp h1 with e1 | m1 <;>
      rcases List.mem_cons.mp h2 with e2 | m2
    · rw [← e2] at e1
      exact congrArg Prod.snd e1
    · exact absurd (List.mem_map_of_mem Prod.fst m2)
        (by rw [show kv.1 = p from congrArg Prod.fst e1.symm] at hnd; exact hnd.1)
    · exact absurd (List.mem_map_of_mem Prod.fst m1)
        (by rw [show kv.1 = p from congrArg Prod.fst e2.symm] at hnd; exact hnd.1)
    · exact ih hnd.2 m1 m2

/-- Membership in the key projection of a filtered association list. -/
lemma mem_map_fst_filter (l : List (String × String)) (C : String × String → Bool)
    (p : String) :
    p ∈ (l.filter C).map Prod.fst ↔ ∃ h', (p, h') ∈ l ∧ C (p, h') = true := by
  constructor
  · intro hp
    rcases List.mem_map.mp hp with ⟨⟨a, b⟩, hkv, hfst⟩
    rcases List.mem_filter.mp hkv with ⟨hl, hC⟩
    obtain rfl : a = p := hfst
    exact ⟨b, hl, hC⟩
  · rintro ⟨h', hl, hC⟩
    exact List.mem_map.mpr ⟨(p, h'), List.mem_filter.mpr ⟨hl, hC⟩, rfl⟩

/-- C2 counterexample: a source file whose provider hash is unavailable
(the empty string) and whose destination twin also has no hash is counted
as verified, not recorded as mismatched, because the two empty hash
strings compare equal; the claim demands a mismatch whenever either hash
is unavailable. -/
theorem claim_C2_counterexample :
    (verify_complete_migration [("a", "")] [("a", "")] "").1.mismatched_files = [] ∧
    (verify_complete_migration [("a", "")] [("a", "")] "").1.verified_files = 1 ∧
    (verify_complete_migration [("a", "")] [("a", "")] "").2 = true := by
  decide

/-- C2 amended: for a source file whose destination path exists and holds
hash dh, the verifier records a mismatch exactly when dh differs from the
source hash as a string (so a file with both hashes unavailable compares
equal and is counted verified), never records it missing, returns true if
and only if the verified count equals the total source file count, and the
three outcome buckets partition the source files. -/
theorem claim_C2_amended (sourceItems destItems : List (String × String))
    (destFolder p h dh : String)
    (hmem : (p, h) ∈ sourceItems)
    (hnd : (sourceItems.map Prod.fst).Nodup)
    (hdest : lookupHash destItems
      ((if destFolder = "" then "" else destFolder ++ "/") ++ p) = some dh) :
    (p ∈ (verify_complete_migration sourceItems destItems destFolder).1.mismatched_files
        ↔ ¬ dh = h) ∧
    p ∉ (verify_complete_migration sourceItems destItems destFolder).1.missing_files ∧
    ((verify_complete_migration sourceItems destItems destFolder).2 = true ↔
      (verify_complete_migration sourceItems destItems destFolder).1.verified_files =
        (verify_complete_migration sourceItems destItems destFolder).1.total_files) ∧
    (verify_complete_migration sourceItems destItems destFolder).1.verified_files +
      (verify_complete_migration sourceItems destItems destFolder).1.missing_files.length +
      (verify_complete_migration sourceItems destItems destFolder).1.mismatched_files.length =
      (verify_complete_migration sourceItems destItems destFolder).1.total_files := by
  have hnotnone : (lookupHash destItems
      ((if destFolder = "" then "" else destFolder ++ "/") ++ p)).isNone = false := by
    rw [hdest]; rfl
  have hverify : verify_file_migration h destItems
      ((if destFolder = "" then "" else destFolder ++ "/") ++ p) = (h == dh) := by
    simp [verify_file_migration, hdest]
  have hclass : classifySource destItems
      (if destFolder = "" then "" else destFolder ++ "/") (p, h) =
      if dh = h then VClass.verified else VClass.mismatched := by
    rcases eq_or_ne dh h with hd | hd
    · simp [classifySource, hnotnone, hverify, hd]
    · simp [classifySource, hnotnone, hverify, hd, Ne.symm hd]
  simp only [verify_complete_migration, verifyItems_eq]
  refine ⟨?_, ?_, ?_, ?_⟩
  · simp only [List.nil_append, mem_map_fst_filter, beq_iff_eq]
    constructor
    · rintro ⟨h', hmem', hC⟩
      rw [value_of_nodup_keys hnd hmem' hmem, hclass] at hC
      rcases eq_or_ne dh h with hd | hd
      · rw [if_pos hd] at hC
        cases hC
      · exact hd
    · intro hne
      exact ⟨h, hmem, by rw [hclass, if_neg hne]⟩
  · simp only [List.nil_append, mem_map_fst_filter, beq_iff_eq]
    rintro ⟨h', hmem', hC⟩
    rw [value_of_nodup_keys hnd hmem' hmem, hclass] at hC
    rcases eq_or_ne dh h with hd | hd
    · rw [if_pos hd] at hC
      cases hC
    · rw [if_neg hd] at hC
      cases hC
  · simp [beq_iff_eq]
  · have hpart := classify_partition destItems
      (if destFolder = "" then "" else destFolder ++ "/") sourceItems
    simp only [List.length_append, List.length_map, List.length_nil, Nat.zero_add]
    omega

/-- C2 witness: one source file a with hash x whose destination twin
exists with hash y. -/
theorem claim_C2_witness :
    (("a", "x") ∈ [("a", "x")] ∧
      (([("a", "x")].map Prod.fst).Nodup) ∧
      lookupHash [("a", "y")] ((if ("" : String) = "" then "" else "" ++ "/") ++ "a")
        = some "y") ∧
    ((("a" : String) ∈ (verify_complete_migration [("a", "x")] [("a", "y")] "").1.mismatched_files
        ↔ ¬ ("y" : String) = "x") ∧
      ("a" : String) ∉ (verify_complete_migration [("a", "x")] [("a", "y")] "").1.missing_files ∧
      ((verify_complete_migration [("a", "x")] [("a", "y")] "").2 = true ↔
        (verify_complete_migration [("a", "x")] [("a", "y")] "").1.verified_files =
          (verify_complete_migration [("a", "x")] [("a", "y")] "").1.total_files) ∧
      (verify_complete_migration [("a", "x")] [("a", "y")] "").1.verified_files +
        (verify_complete_migration [("a", "x")] [("a", "y")] "").1.missing_files.length +
        (verify_complete_migration [("a", "x")] [("a", "y")] "").1.mismatched_files.length =
        (verify_complete_migration [("a", "x")] [("a", "y")] "").1.total_files) :=
  ⟨⟨by decide, by decide, by decide⟩,
    claim_C2_amended [("a", "x")] [("a", "y")] "" "a" "x" "y"
      (by decide) (by decide) (by decide)⟩

/-! The migration orchestrator (src lines 332-358 and 423-468).

The source tree, as the listing calls of a run reveal it, is a rose tree of
named files and folders.  One run threads a MigState value: the durable
progress record (migrated and failed path lists of migration_progress.json,
appended and flushed after each outcome), the statistics dictionary, the
set of files currently present under the temp_downloads scratch directory,
and ghost logs recording, in call order, the relative path of every file
for which download_file was invoked, of every file for which upload_file
was invoked (upload_file itself receives the destination-prefixed form of
that path), and every folder passed to create_folder.  The outcome of the
download, upload and verify stages for a given file is abstracted into one
oracle function from the file's relative path to an Outcome, which makes a
run against an unchanged source and destination deterministic. -/

inductive FsTree where
  | file (name : String) (size : Nat) (hash : String)
  | folder (name : String) (children : List FsTree)
deriving Repr

/-- Display name of a tree entry. -/
def FsTree.name : FsTree → String
  | .file n _ _ => n
  | .folder n _ => n

/-- Joint outcome of the download, upload and verify stages attempted for
one file, matching the branch structure of _migrate_file. -/
inductive Outcome where
  | success
  | downloadFail
  | uploadFail
  | verifyFail
deriving Repr, DecidableEq

/-- The per-run state threaded by the orchestrator: progress record,
statistics, scratch files, and the ghost transfer logs. -/
structure MigState where
  migrated : List String
  failed : List String
  downloads : List String
  uploads : List String
  foldersCreated : List String
  scratch : List String
  total_files : Nat
  total_folders : Nat
  total_size : Nat
  migrated_files : Nat
  migrated_size : Nat
  current_file : String
deriving Repr, DecidableEq

/-- State at the start of a run with no prior progress file: empty progress
sets and the statistics dictionary of __init__ (src lines 63-71), every
counter 0. -/
def initState : MigState :=
  ⟨[], [], [], [], [], [], 0, 0, 0, 0, 0, ""⟩

/-- os.path.join of the temp_downloads scratch directory with the file's
relative path (src line 436). -/
def localPathOf (itemPath : String) : String :=
  "temp_downloads/" ++ itemPath

/-- OneDriveMigration._migrate_file (src lines 423-468) for the file at
itemPath: count the file in the statistics; skip it if its path is in the
migrated list; otherwise call download_file and, as its stages allow,
upload_file and verify_file_migration, appending the path to migrated on
full success and to failed on any stage failure; the finally clause erases
the scratch file whatever the outcome was.  The scratch file appears once
a download attempt succeeds; migrated_size is never touched, exactly as in
the source. -/
def migrateFile (oracle : String → Outcome) (st : MigState)
    (itemPath : String) (size : Nat) : MigState :=
  let st := { st with total_files := st.total_files + 1,
                      total_size := st.total_size + size }
  if itemPath ∈ st.migrated then
    { st with migrated_files := st.migrated_files + 1 }
  else
    let st := { st with current_file := itemPath }
    let localPath := localPathOf itemPath
    let st := { st with downloads := st.downloads ++ [itemPath] }
    let st :=
      match oracle itemPath with
      | .downloadFail =>
        { st with failed := st.failed ++ [itemPath] }
      | .uploadFail =>
        { st with scratch := st.scratch ++ [localPath],
                  uploads := st.uploads ++ [itemPath],
                  failed := st.failed ++ [itemPath] }
      | .verifyFail =>
        { st with scratch := st.scratch ++ [localPath],
                  uploads := st.uploads ++ [itemPath],
                  failed := st.failed ++ [itemPath] }
      | .success =>
        { st with scratch := st.scratch ++ [localPath],
                  uploads := st.uploads ++ [itemPath],
                  migrated := st.migrated ++ [itemPath],
                  migrated_files := st.migrated_files + 1 }
    { st with scratch := st.scratch.filter (fun q => q != localPath) }

/-- The body of the child loop of OneDriveMigration.migrate_folder (src
lines 338-358), with the exclusion filter of the get_drive_items listing
call fused into the loop's own identical should_exclude_path check on the
same child path (see runItems_filter below for the justification), and
with the recursive migrate_folder call inlined as its guard followed by
the loop over the subfolder's children.  source_path and relative_path
stay equal along the recursion (both start empty and are extended by the
same child name), so a single path argument represents both. -/
def runItems (excludedPaths : List String) (oracle : String → Outcome) :
    String → List FsTree → MigState → MigState
  | _, [], st => st
  | relPath, item :: rest, st =>
    let ipath := childPath relPath item.name
    if should_exclude_path excludedPaths ipath then
      runItems excludedPaths oracle relPath rest st
    else
      match item with
      | .file _ size _ =>
        runItems excludedPaths oracle relPath rest (migrateFile oracle st ipath size)
      | .folder _ cs =>
        let st := { st with total_folders := st.total_folders + 1,
                            foldersCreated := st.foldersCreated ++ [ipath] }
        runItems excludedPaths oracle relPath rest
          (runItems excludedPaths oracle ipath cs st)

/-- OneDriveMigration.migrate_folder (src lines 332-358): return at once
when the folder's own relative path is excluded, otherwise walk the listed
children. -/
def migrate_folder (excludedPaths : List String) (oracle : String → Outcome)
    (relPath : String) (children : List FsTree) (st : MigState) : MigState :=
  if should_exclude_path excludedPaths relPath then st
  else runItems excludedPaths oracle relPath children st

/-- The relative paths of the files a walk of the children of relPath
actually reaches: excluded children and everything inside excluded
folders are absent. -/
def reachFiles (excludedPaths : List String) : String → List FsTree → List String
  | _, [] => []
  | relPath, item :: rest =>
    let ipath := childPath relPath item.name
    if should_exclude_path excludedPaths ipath then
      reachFiles excludedPaths relPath rest
    else
      match item with
      | .file _ _ _ => ipath :: reachFiles excludedPaths relPath rest
      | .folder _ cs =>
        reachFiles excludedPaths ipath cs ++ reachFiles excludedPaths relPath rest

/-- Dropping the excluded children before the loop, as the get_drive_items
call inside migrate_folder does, changes nothing: the loop skips exactly
those children through the same should_exclude_path test on the same child
path, so fusing the listing filter into the loop is sound. -/
lemma runItems_filter (excludedPaths : List String) (oracle : String → Outcome)
    (relPath : String) (children : List FsTree) (st : MigState) :
    runItems excludedPaths oracle relPath
      (children.filter
        (fun c => !should_exclude_path excludedPaths (childPath relPath c.name)))
      st
      = runItems excludedPaths oracle relPath children st := by
  induction children generalizing st with
  | nil => rfl
  | cons item rest ih =>
    by_cases hx : should_exclude_path excludedPaths (childPath relPath item.name)
    · cases item with
      | file n size h => simp_all [List.filter_cons, FsTree.name, runItems]
      | folder n cs => simp_all [List.filter_cons, FsTree.name, runItems]
    · cases item with
      | file n size h => simp_all [List.filter_cons, FsTree.name, runItems]
      | folder n cs => simp_all [List.filter_cons, FsTree.name, runItems]

/-! Per-file lemmas about migrateFile. -/

/-- _migrate_file never touches the migrated_size counter. -/
lemma migrateFile_migrated_size (oracle : String → Outcome) (st : MigState)
    (itemPath : String) (size : Nat) :
    (migrateFile oracle st itemPath size).migrated_size = st.migrated_size := by
  by_cases h : itemPath ∈ st.migrated
  · simp [migrateFile, h]
  · cases ho : oracle itemPath <;> simp [migrateFile, h, ho]

/-- Every progress or transfer list of the state only grows under
_migrate_file. -/
lemma migrateFile_mem_mono (oracle : String → Outcome) (st : MigState)
    (itemPath : String) (size : Nat) (q : String) :
    (q ∈ st.migrated → q ∈ (migrateFile oracle st itemPath size).migrated) ∧
    (q ∈ st.failed → q ∈ (migrateFile oracle st itemPath size).failed) ∧
    (q ∈ st.downloads → q ∈ (migrateFile oracle st itemPath size).downloads) ∧
    (q ∈ st.uploads → q ∈ (migrateFile oracle st itemPath size).uploads) := by
  by_cases h : itemPath ∈ st.migrated
  · simp [migrateFile, h]
  · cases ho : oracle itemPath <;>
      simp [migrateFile, h, ho, List.mem_append] <;> tauto

/-- Any entry of a progress or transfer list after _migrate_file was
already there or is the processed path itself. -/
lemma migrateFile_mem_sub (oracle : String → Outcome) (st : MigState)
    (itemPath : String) (size : Nat) (q : String) :
    (q ∈ (migrateFile oracle st itemPath size).migrated → q ∈ st.migrated ∨ q = itemPath) ∧
    (q ∈ (migrateFile oracle st itemPath size).failed → q ∈ st.failed ∨ q = itemPath) ∧
    (q ∈ (migrateFile oracle st itemPath size).downloads → q ∈ st.downloads ∨ q = itemPath) ∧
    (q ∈ (migrateFile oracle st itemPath size).uploads → q ∈ st.uploads ∨ q = itemPath) := by
  by_cases h : itemPath ∈ st.migrated
  · simp [migrateFile, h]
    tauto
  · cases ho : oracle itemPath <;>
      simp [migrateFile, h, ho, List.mem_append] <;> tauto

/-- A file whose path is already in the migrated list is skipped: no
progress append and no transfer call. -/
lemma migrateFile_skip (oracle : String → Outcome) (st : MigState)
    (itemPath : String) (size : Nat) (h : itemPath ∈ st.migrated) :
    (migrateFile oracle st itemPath size).migrated = st.migrated ∧
    (migrateFile oracle st itemPath size).failed = st.failed ∧
    (migrateFile oracle st itemPath size).downloads = st.downloads ∧
    (migrateFile oracle st itemPath size).uploads = st.uploads := by
  simp [migrateFile, h]

/-- After _migrate_file on a path whose stages all succeed, the path is in
the migrated list. -/
lemma migrateFile_success_mem (oracle : String → Outcome) (st : MigState)
    (itemPath : String) (size : Nat) (hs : oracle itemPath = .success) :
    itemPath ∈ (migrateFile oracle st itemPath size).migrated := by
  by_cases h : itemPath ∈ st.migrated <;> simp [migrateFile, h, hs]

/-! Walk lemmas, by the functional induction principle of runItems. -/

/-- No step of the walk touches the migrated_size counter. -/
lemma runItems_migrated_size (excludedPaths : List String)
    (oracle : String → Outcome) (relPath : String) (items : List FsTree)
    (st : MigState) :
    (runItems excludedPaths oracle relPath items st).migrated_size
      = st.migrated_size := by
  induction relPath, items, st using runItems.induct excludedPaths oracle with
  | case1 x st => simp [runItems]
  | case2 relPath item rest st ipath hx ih =>
    unfold ipath at *
    cases item <;> simp_all [runItems, FsTree.name]
  | case3 relPath rest st n size h ipath hx ih =>
    unfold ipath at *
    simp_all [runItems, FsTree.name, migrateFile_migrated_size]
  | case4 relPath rest st n cs ipath hx st1 ih1 ihd ih2 =>
    unfold ipath st1 at *
    simp_all [runItems, FsTree.name, migrateFile_migrated_size]
    exact ih2

/-- Every progress or transfer list only grows along a walk. -/
lemma runItems_mem_mono (excludedPaths : List String)
    (oracle : String → Outcome) (relPath : String) (items : List FsTree)
    (st : MigState) (q : String) :
    (q ∈ st.migrated → q ∈ (runItems excludedPaths oracle relPath items st).migrated) ∧
    (q ∈ st.failed → q ∈ (runItems excludedPaths oracle relPath items st).failed) ∧
    (q ∈ st.downloads → q ∈ (runItems excludedPaths oracle relPath items st).downloads) ∧
    (q ∈ st.uploads → q ∈ (runItems excludedPaths oracle relPath items st).uploads) := by
  induction relPath, items, st using runItems.induct excludedPaths oracle with
  | case1 x st => simp [runItems]
  | case2 relPath item rest st ipath hx ih =>
    unfold ipath at *
    obtain ⟨i1, i2, i3, i4⟩ := ih
    cases item with
    | file n size h =>
      simp only [FsTree.name] at hx
      rw [show runItems excludedPaths oracle relPath (FsTree.file n size h :: rest) st
          = runItems excludedPaths oracle relPath rest st by
        simp [runItems, FsTree.name, hx]]
      exact ⟨i1, i2, i3, i4⟩
    | folder n cs =>
      simp only [FsTree.name] at hx
      rw [show runItems excludedPaths oracle relPath (FsTree.folder n cs :: rest) st
          = runItems excludedPaths oracle relPath rest st by
        simp [runItems, FsTree.name, hx]]
      exact ⟨i1, i2, i3, i4⟩
  | case3 relPath rest st n size h ipath hx ih =>
    unfold ipath at *
    simp only [FsTree.name] at hx ⊢
    simp only [Bool.not_eq_true] at hx
    obtain ⟨i1, i2, i3, i4⟩ := ih
    obtain ⟨m1, m2, m3, m4⟩ :=
      migrateFile_mem_mono oracle st (childPath relPath n) size q
    rw [show runItems excludedPaths oracle relPath (FsTree.file n size h :: rest) st
        = runItems excludedPaths oracle relPath rest
            (migrateFile oracle st (childPath relPath n) size) by
      simp [runItems, FsTree.name, hx]]
    exact ⟨fun hq => i1 (m1 hq), fun hq => i2 (m2 hq),
      fun hq => i3 (m3 hq), fun hq => i4 (m4 hq)⟩
  | case4 relPath rest st n cs ipath hx st1 ih1 ihd ih2 =>
    unfold ipath st1 at *
    simp only [FsTree.name] at hx ⊢
    simp only [Bool.not_eq_true] at hx
    obtain ⟨i1, i2, i3, i4⟩ := ih1
    obtain ⟨j1, j2, j3, j4⟩ := ih2
    rw [show runItems excludedPaths oracle relPath (FsTree.folder n cs :: rest) st
        = runItems excludedPaths oracle relPath rest
            (runItems excludedPaths oracle (childPath relPath n) cs
              { st with total_folders := st.total_folders + 1,
                        foldersCreated := st.foldersCreated ++ [childPath relPath n] }) by
      simp [runItems, FsTree.name, hx]]
    exact ⟨fun hq => j1 (i1 hq), fun hq => j2 (i2 hq),
      fun hq => j3 (i3 hq), fun hq => j4 (i4 hq)⟩

/-- Any entry of a progress or transfer list after a walk was already
there before the walk or is a path that passed the exclusion check. -/
lemma runItems_mem_sub (excludedPaths : List String)
    (oracle : String → Outcome) (relPath : String) (items : List FsTree)
    (st : MigState) (q : String) :
    (q ∈ (runItems excludedPaths oracle relPath items st).migrated →
      q ∈ st.migrated ∨ should_exclude_path excludedPaths q = false) ∧
    (q ∈ (runItems excludedPaths oracle relPath items st).failed →
      q ∈ st.failed ∨ should_exclude_path excludedPaths q = false) ∧
    (q ∈ (runItems excludedPaths oracle relPath items st).downloads →
      q ∈ st.downloads ∨ should_exclude_path excludedPaths q = false) ∧
    (q ∈ (runItems excludedPaths oracle relPath items st).uploads →
      q ∈ st.uploads ∨ should_exclude_path excludedPaths q = false) := by
  induction relPath, items, st using runItems.induct excludedPaths oracle with
  | case1 x st =>
    simp only [runItems]
    tauto
  | case2 relPath item rest st ipath hx ih =>
    unfold ipath at *
    obtain ⟨i1, i2, i3, i4⟩ := ih
    cases item with
    | file n size h =>
      simp only [FsTree.name] at hx
      rw [show runItems excludedPaths oracle relPath (FsTree.file n size h :: rest) st
          = runItems excludedPaths oracle relPath rest st by
        simp [runItems, FsTree.name, hx]]
      exact ⟨i1, i2, i3, i4⟩
    | folder n cs =>
      simp only [FsTree.name] at hx
      rw [show runItems excludedPaths oracle relPath (FsTree.folder n cs :: rest) st
          = runItems excludedPaths oracle relPath rest st by
        simp [runItems, FsTree.name, hx]]
      exact ⟨i1, i2, i3, i4⟩
  | case3 relPath rest st n size h ipath hx ih =>
    unfold ipath at *
    simp only [FsTree.name] at hx ⊢
    simp only [Bool.not_eq_true] at hx
    obtain ⟨i1, i2, i3, i4⟩ := ih
    obtain ⟨m1, m2, m3, m4⟩ :=
      migrateFile_mem_sub oracle st (childPath relPath n) size q
    rw [show runItems excludedPaths oracle relPath (FsTree.file n size h :: rest) st
        = runItems excludedPaths oracle relPath rest
            (migrateFile oracle st (childPath relPath n) size) by
      simp [runItems, FsTree.name, hx]]
    refine ⟨fun hq => ?_, fun hq => ?_, fun hq => ?_, fun hq => ?_⟩
    · rcases i1 hq with hq2 | hex
      · rcases m1 hq2 with h3 | rfl
        · exact Or.inl h3
        · exact Or.inr hx
      · exact Or.inr hex
    · rcases i2 hq with hq2 | hex
      · rcases m2 hq2 with h3 | rfl
        · exact Or.inl h3
        · exact Or.inr hx
      · exact Or.inr hex
    · rcases i3 hq with hq2 | hex
      · rcases m3 hq2 with h3 | rfl
        · exact Or.inl h3
        · exact Or.inr hx
      · exact Or.inr hex
    · rcases i4 hq with hq2 | hex
      · rcases m4 hq2 with h3 | rfl
        · exact Or.inl h3
        · exact Or.inr hx
      · exact Or.inr hex
  | case4 relPath rest st n cs ipath hx st1 ih1 ihd ih2 =>
    unfold ipath st1 at *
    simp only [FsTree.name] at hx ⊢
    simp only [Bool.not_eq_true] at hx
    obtain ⟨i1, i2, i3, i4⟩ := ih1
    obtain ⟨j1, j2, j3, j4⟩ := ih2
    rw [show runItems excludedPaths oracle relPath (FsTree.folder n cs :: rest) st
        = runItems excludedPaths oracle relPath rest
            (runItems excludedPaths oracle (childPath relPath n) cs
              { st with total_folders := st.total_folders + 1,
                        foldersCreated := st.foldersCreated ++ [childPath relPath n] }) by
      simp [runItems, FsTree.name, hx]]
    refine ⟨fun hq => ?_, fun hq => ?_, fun hq => ?_, fun hq => ?_⟩
    · rcases j1 hq with hq2 | hex
      · rcases i1 hq2 with h3 | hex2
        · exact Or.inl h3
        · exact Or.inr hex2
      · exact Or.inr hex
    · rcases j2 hq with hq2 | hex
      · rcases i2 hq2 with h3 | hex2
        · exact Or.inl h3
        · exact Or.inr hex2
      · exact Or.inr hex
    · rcases j3 hq with hq2 | hex
      · rcases i3 hq2 with h3 | hex2
        · exact Or.inl h3
        · exact Or.inr hex2
      · exact Or.inr hex
    · rcases j4 hq with hq2 | hex
      · rcases i4 hq2 with h3 | hex2
        · exact Or.inl h3
        · exact Or.inr hex2
      · exact Or.inr hex

/-- When every file the walk reaches is already in the migrated list, the
walk changes neither the progress lists nor the transfer logs: each file is
skipped before any transfer work. -/
lemma runItems_skip (excludedPaths : List String) (oracle : String → Outcome)
    (relPath : String) (items : List FsTree) (st : MigState) :
    (∀ q ∈ reachFiles excludedPaths relPath items, q ∈ st.migrated) →
    (runItems excludedPaths oracle relPath items st).migrated = st.migrated ∧
    (runItems excludedPaths oracle relPath items st).failed = st.failed ∧
    (runItems excludedPaths oracle relPath items st).downloads = st.downloads ∧
    (runItems excludedPaths oracle relPath items st).uploads = st.uploads := by
  induction relPath, items, st using runItems.induct excludedPaths oracle with
  | case1 x st =>
    intro _
    simp [runItems]
  | case2 relPath item rest st ipath hx ih =>
    unfold ipath at *
    intro hall
    cases item with
    | file n size h =>
      simp only [FsTree.name] at hx
      rw [show runItems excludedPaths oracle relPath (FsTree.file n size h :: rest) st
          = runItems excludedPaths oracle relPath rest st by
        simp [runItems, FsTree.name, hx]]
      refine ih ?_
      intro q hq
      refine hall q ?_
      simpa [reachFiles, FsTree.name, hx] using hq
    | folder n cs =>
      simp only [FsTree.name] at hx
      rw [show runItems excludedPaths oracle relPath (FsTree.folder n cs :: rest) st
          = runItems excludedPaths oracle relPath rest st by
        simp [runItems, FsTree.name, hx]]
      refine ih ?_
      intro q hq
      refine hall q ?_
      simpa [reachFiles, FsTree.name, hx] using hq
  | case3 relPath rest st n size h ipath hx ih =>
    unfold ipath at *
    simp only [FsTree.name] at hx ⊢
    simp only [Bool.not_eq_true] at hx
    intro hall
    have hreach : reachFiles excludedPaths relPath (FsTree.file n size h :: rest)
        = childPath relPath n :: reachFiles excludedPaths relPath rest := by
      simp [reachFiles, FsTree.name, hx]
    rw [hreach] at hall
    have hhead : childPath relPath n ∈ st.migrated :=
      hall _ (List.mem_cons_self _ _)
    obtain ⟨s1, s2, s3, s4⟩ :=
      migrateFile_skip oracle st (childPath relPath n) size hhead
    rw [show runItems excludedPaths oracle relPath (FsTree.file n size h :: rest) st
        = runItems excludedPaths oracle relPath rest
            (migrateFile oracle st (childPath relPath n) size) by
      simp [runItems, FsTree.name, hx]]
    obtain ⟨e1, e2, e3, e4⟩ := ih (by
      intro q hq
      show q ∈ (migrateFile oracle st (childPath relPath n) size).migrated
      rw [s1]
      exact hall q (List.mem_cons_of_mem _ hq))
    exact ⟨e1.trans s1, e2.trans s2, e3.trans s3, e4.trans s4⟩
  | case4 relPath rest st n cs ipath hx st1 ih1 ihd ih2 =>
    unfold ipath st1 at *
    simp only [FsTree.name] at hx ⊢
    simp only [Bool.not_eq_true] at hx
    intro hall
    have hreach : reachFiles excludedPaths relPath (FsTree.folder n cs :: rest)
        = reachFiles excludedPaths (childPath relPath n) cs ++
            reachFiles excludedPaths relPath rest := by
      simp [reachFiles, FsTree.name, hx]
    rw [hreach] at hall
    obtain ⟨e1, e2, e3, e4⟩ := ih1 (by
      intro q hq
      exact hall q (List.mem_append_left _ hq))
    obtain ⟨f1, f2, f3, f4⟩ := ih2 (by
      intro q hq
      rw [e1]
      exact hall q (List.mem_append_right _ hq))
    rw [show runItems excludedPaths oracle relPath (FsTree.folder n cs :: rest) st
        = runItems excludedPaths oracle relPath rest
            (runItems excludedPaths oracle (childPath relPath n) cs
              { st with total_folders := st.total_folders + 1,
                        foldersCreated := st.foldersCreated ++ [childPath relPath n] }) by
      simp [runItems, FsTree.name, hx]]
    exact ⟨f1.trans e1, f2.trans e2, f3.trans e3, f4.trans e4⟩

/-- When every transfer stage succeeds, every file the walk reaches ends up
in the migrated list. -/
lemma runItems_coverage (excludedPaths : List String) (oracle : String → Outcome)
    (hsucc : ∀ p, oracle p = .success) (relPath : String) (items : List FsTree)
    (st : MigState) :
    ∀ q ∈ reachFiles excludedPaths relPath items,
      q ∈ (runItems excludedPaths oracle relPath items st).migrated := by
  induction relPath, items, st using runItems.induct excludedPaths oracle with
  | case1 x st =>
    intro q hq
    simp [reachFiles] at hq
  | case2 relPath item rest st ipath hx ih =>
    unfold ipath at *
    intro q hq
    cases item with
    | file n size h =>
      simp only [FsTree.name] at hx
      rw [show runItems excludedPaths oracle relPath (FsTree.file n size h :: rest) st
          = runItems excludedPaths oracle relPath rest st by
        simp [runItems, FsTree.name, hx]]
      refine ih q ?_
      simpa [reachFiles, FsTree.name, hx] using hq
    | folder n cs =>
      simp only [FsTree.name] at hx
      rw [show runItems excludedPaths oracle relPath (FsTree.folder n cs :: rest) st
          = runItems excludedPaths oracle relPath rest st by
        simp [runItems, FsTree.name, hx]]
      refine ih q ?_
      simpa [reachFiles, FsTree.name, hx] using hq
  | case3 relPath rest st n size h ipath hx ih =>
    unfold ipath at *
    simp only [FsTree.name] at hx ⊢
    simp only [Bool.not_eq_true] at hx
    intro q hq
    have hreach : reachFiles excludedPaths relPath (FsTree.file n size h :: rest)
        = childPath relPath n :: reachFiles excludedPaths relPath rest := by
      simp [reachFiles, FsTree.name, hx]
    rw [hreach] at hq
    rw [show runItems excludedPaths oracle relPath (FsTree.file n size h :: rest) st
        = runItems excludedPaths oracle relPath rest
            (migrateFile oracle st (childPath relPath n) size) by
      simp [runItems, FsTree.name, hx]]
    rcases List.mem_cons.mp hq with rfl | hq2
    · exact (runItems_mem_mono excludedPaths oracle relPath rest
        (migrateFile oracle st (childPath relPath n) size) (childPath relPath n)).1
        (migrateFile_success_mem oracle st (childPath relPath n) size (hsucc _))
    · exact ih q hq2
  | case4 relPath rest st n cs ipath hx st1 ih1 ihd ih2 =>
    unfold ipath st1 at *
    simp only [FsTree.name] at hx ⊢
    simp only [Bool.not_eq_true] at hx
    intro q hq
    have hreach : reachFiles excludedPaths relPath (FsTree.folder n cs :: rest)
        = reachFiles excludedPaths (childPath relPath n) cs ++
            reachFiles excludedPaths relPath rest := by
      simp [reachFiles, FsTree.name, hx]
    rw [hreach] at hq
    rw [show runItems excludedPaths oracle relPath (FsTree.folder n cs :: rest) st
        = runItems excludedPaths oracle relPath rest
            (runItems excludedPaths oracle (childPath relPath n) cs
              { st with total_folders := st.total_folders + 1,
                        foldersCreated := st.foldersCreated ++ [childPath relPath n] }) by
      simp [runItems, FsTree.name, hx]]
    rcases List.mem_append.mp hq with hq2 | hq2
    · exact (runItems_mem_mono excludedPaths oracle relPath rest _ q).1 (ih1 q hq2)
    · exact ih2 q hq2

/-- The average-speed figure of _format_progress (src lines 295-296):
migrated_size over the elapsed seconds when time has elapsed, else 0.
Integer division stands in for Python float division; with a zero
numerator both yield 0. -/
def format_progress_speed (st : MigState) (elapsed : Nat) : Nat :=
  if 0 < elapsed then st.migrated_size / elapsed else 0

/-- A progress state as _load_progress leaves it after a prior run during
which the file a failed. -/
def priorFailedState : MigState :=
  { initState with failed := ["a"] }

/-! Claim theorems for the orchestrator walk. -/

/-- C5: a path equal to or nested under a configured exclusion prefix is
never passed to download_file or upload_file during a run, and is never
appended to the migrated or failed list of the progress state. -/
theorem claim_C5_exclusion (excludedPaths : List String)
    (oracle : String → Outcome) (relPath : String) (children : List FsTree)
    (st : MigState) (p e : String)
    (he : e ∈ excludedPaths) (hn : nestedUnderOrEqual p e = true)
    (h1 : p ∉ st.downloads) (h2 : p ∉ st.uploads)
    (h3 : p ∉ st.migrated) (h4 : p ∉ st.failed) :
    p ∉ (migrate_folder excludedPaths oracle relPath children st).downloads ∧
    p ∉ (migrate_folder excludedPaths oracle relPath children st).uploads ∧
    p ∉ (migrate_folder excludedPaths oracle relPath children st).migrated ∧
    p ∉ (migrate_folder excludedPaths oracle relPath children st).failed := by
  have hex : should_exclude_path excludedPaths p = true :=
    should_exclude_of_nested he hn
  unfold migrate_folder
  by_cases hr : should_exclude_path excludedPaths relPath = true
  · simp only [hr, if_pos]
    exact ⟨h1, h2, h3, h4⟩
  · simp only [hr, if_neg, Bool.false_eq_true, not_false_eq_true]
    obtain ⟨s1, s2, s3, s4⟩ :=
      runItems_mem_sub excludedPaths oracle relPath children st p
    refine ⟨fun hp => ?_, fun hp => ?_, fun hp => ?_, fun hp => ?_⟩
    · rcases s3 hp with hin | hf
      · exact h1 hin
      · simp [hex] at hf
    · rcases s4 hp with hin | hf
      · exact h2 hin
      · simp [hex] at hf
    · rcases s1 hp with hin | hf
      · exact h3 hin
      · simp [hex] at hf
    · rcases s2 hp with hin | hf
      · exact h4 hin
      · simp [hex] at hf

/-- C5 witness: exclusion prefix ex, file ex/f.txt inside the excluded
folder, run from a fresh state. -/
theorem claim_C5_witness :
    (("ex" : String) ∈ ["ex"]) ∧
    nestedUnderOrEqual "ex/f.txt" "ex" = true ∧
    (("ex/f.txt" : String) ∉ initState.downloads ∧
      ("ex/f.txt" : String) ∉ initState.uploads ∧
      ("ex/f.txt" : String) ∉ initState.migrated ∧
      ("ex/f.txt" : String) ∉ initState.failed) ∧
    ("ex/f.txt" : String) ∉ (migrate_folder ["ex"] (fun _ => Outcome.success) ""
        [FsTree.folder "ex" [FsTree.file "f.txt" 1 "h"]] initState).downloads ∧
    ("ex/f.txt" : String) ∉ (migrate_folder ["ex"] (fun _ => Outcome.success) ""
        [FsTree.folder "ex" [FsTree.file "f.txt" 1 "h"]] initState).uploads ∧
    ("ex/f.txt" : String) ∉ (migrate_folder ["ex"] (fun _ => Outcome.success) ""
        [FsTree.folder "ex" [FsTree.file "f.txt" 1 "h"]] initState).migrated ∧
    ("ex/f.txt" : String) ∉ (migrate_folder ["ex"] (fun _ => Outcome.success) ""
        [FsTree.folder "ex" [FsTree.file "f.txt" 1 "h"]] initState).failed :=
  ⟨by decide, by decide, ⟨by decide, by decide, by decide, by decide⟩,
    claim_C5_exclusion ["ex"] (fun _ => Outcome.success) ""
      [FsTree.folder "ex" [FsTree.file "f.txt" 1 "h"]] initState "ex/f.txt" "ex"
      (by decide) (by decide) (by decide) (by decide) (by decide) (by decide)⟩

/-- C6 counterexample: the file a failed in a prior run, so the loaded
progress state carries a in its failed list; the current run migrates a
successfully, appending it to migrated while failed is never pruned, so
after this fully successful run the path a sits in both sets at once. -/
theorem claim_C6_counterexample :
    "a" ∈ (migrate_folder [] (fun _ => Outcome.success) ""
        [FsTree.file "a" 1 "h"] priorFailedState).migrated ∧
    "a" ∈ (migrate_folder [] (fun _ => Outcome.success) ""
        [FsTree.file "a" 1 "h"] priorFailedState).failed := by
  constructor <;>
    simp [migrate_folder, runItems, migrateFile, childPath, should_exclude_path,
      stripSlashes, pyStartswith, priorFailedState, initState, FsTree.name,
      localPathOf]

/-- C6 amended: within one _migrate_file call no path is appended to both
sets, but failed entries are never removed: a path that sits in the failed
list from a prior run and whose transfer now succeeds is appended to
migrated while remaining in failed, so after the successful run it appears
in both sets of the progress state. -/
theorem claim_C6_amended (oracle : String → Outcome) (st : MigState)
    (p : String) (size : Nat)
    (hf : p ∈ st.failed) (hm : p ∉ st.migrated) (hs : oracle p = .success) :
    p ∈ (migrateFile oracle st p size).migrated ∧
    p ∈ (migrateFile oracle st p size).failed := by
  simp [migrateFile, hm, hs, hf]

/-- C6 witness: the prior-failed state with the successful oracle. -/
theorem claim_C6_witness :
    (("a" : String) ∈ priorFailedState.failed) ∧
    (("a" : String) ∉ priorFailedState.migrated) ∧
    ((fun _ : String => Outcome.success) "a" = Outcome.success) ∧
    ("a" ∈ (migrateFile (fun _ => Outcome.success) priorFailedState "a" 1).migrated ∧
      "a" ∈ (migrateFile (fun _ => Outcome.success) priorFailedState "a" 1).failed) :=
  ⟨by decide, by decide, rfl,
    claim_C6_amended (fun _ => Outcome.success) priorFailedState "a" 1
      (by decide) (by decide) rfl⟩

/-- C7: when every transfer of the first run succeeds, running the
orchestrator a second time over the same unchanged tree leaves the
migrated set unchanged and invokes no download and no upload: every file
already in the migrated set is skipped before any transfer work. -/
theorem claim_C7_idempotent (excludedPaths : List String)
    (oracle : String → Outcome) (children : List FsTree) (st0 : MigState)
    (hsucc : ∀ p, oracle p = .success) :
    (migrate_folder excludedPaths oracle "" children
        (migrate_folder excludedPaths oracle "" children st0)).migrated =
      (migrate_folder excludedPaths oracle "" children st0).migrated ∧
    (migrate_folder excludedPaths oracle "" children
        (migrate_folder excludedPaths oracle "" children st0)).downloads =
      (migrate_folder excludedPaths oracle "" children st0).downloads ∧
    (migrate_folder excludedPaths oracle "" children
        (migrate_folder excludedPaths oracle "" children st0)).uploads =
      (migrate_folder excludedPaths oracle "" children st0).uploads := by
  unfold migrate_folder
  by_cases hr : should_exclude_path excludedPaths "" = true
  · simp [hr]
  · simp only [hr, Bool.false_eq_true, if_neg, not_false_eq_true]
    obtain ⟨e1, _, e3, e4⟩ := runItems_skip excludedPaths oracle "" children
      (runItems excludedPaths oracle "" children st0)
      (fun q hq => runItems_coverage excludedPaths oracle hsucc "" children st0 q hq)
    exact ⟨e1, e3, e4⟩

/-- C7 witness: single file a, always-successful oracle, fresh state. -/
theorem claim_C7_witness :
    (∀ p : String, (fun _ : String => Outcome.success) p = Outcome.success) ∧
    ((migrate_folder [] (fun _ => Outcome.success) "" [FsTree.file "a" 1 "h"]
        (migrate_folder [] (fun _ => Outcome.success) "" [FsTree.file "a" 1 "h"]
          initState)).migrated =
      (migrate_folder [] (fun _ => Outcome.success) "" [FsTree.file "a" 1 "h"]
        initState).migrated ∧
    (migrate_folder [] (fun _ => Outcome.success) "" [FsTree.file "a" 1 "h"]
        (migrate_folder [] (fun _ => Outcome.success) "" [FsTree.file "a" 1 "h"]
          initState)).downloads =
      (migrate_folder [] (fun _ => Outcome.success) "" [FsTree.file "a" 1 "h"]
        initState).downloads ∧
    (migrate_folder [] (fun _ => Outcome.success) "" [FsTree.file "a" 1 "h"]
        (migrate_folder [] (fun _ => Outcome.success) "" [FsTree.file "a" 1 "h"]
          initState)).uploads =
      (migrate_folder [] (fun _ => Outcome.success) "" [FsTree.file "a" 1 "h"]
        initState).uploads) :=
  ⟨fun _ => rfl,
    claim_C7_idempotent [] (fun _ => Outcome.success) [FsTree.file "a" 1 "h"]
      initState (fun _ => rfl)⟩

/-- C9: for a file that is not skipped, whatever the outcome of its
download, upload and verify stages, the finally clause of _migrate_file
removes the local scratch file, so it no longer exists when the call
returns. -/
theorem claim_C9_cleanup (oracle : String → Outcome) (st : MigState)
    (itemPath : String) (size : Nat) (h : itemPath ∉ st.migrated) :
    localPathOf itemPath ∉ (migrateFile oracle st itemPath size).scratch := by
  cases ho : oracle itemPath <;>
    simp [migrateFile, h, ho, List.mem_filter]

/-- C9 witness: fresh state, file a, download failure outcome. -/
theorem claim_C9_witness :
    (("a" : String) ∉ initState.migrated) ∧
    localPathOf "a" ∉
      (migrateFile (fun _ => Outcome.downloadFail) initState "a" 1).scratch :=
  ⟨by decide,
    claim_C9_cleanup (fun _ => Outcome.downloadFail) initState "a" 1 (by decide)⟩

/-- C10: the migrated_size counter starts at 0 and no walk operation ever
increments it, so after any run from a fresh state the displayed
migrated-byte total is 0 and the displayed average speed is 0 whatever
time has elapsed. -/
theorem claim_C10_migrated_size (excludedPaths : List String)
    (oracle : String → Outcome) (relPath : String) (children : List FsTree)
    (st : MigState) (elapsed : Nat) :
    initState.migrated_size = 0 ∧
    (migrate_folder excludedPaths oracle relPath children st).migrated_size
      = st.migrated_size ∧
    (migrate_folder excludedPaths oracle relPath children initState).migrated_size
      = 0 ∧
    format_progress_speed
      (migrate_folder excludedPaths oracle relPath children initState) elapsed = 0 := by
  have hgen : ∀ s : MigState,
      (migrate_folder excludedPaths oracle relPath children s).migrated_size
        = s.migrated_size := by
    intro s
    unfold migrate_folder
    by_cases hr : should_exclude_path excludedPaths relPath = true
    · simp [hr]
    · simp [hr, runItems_migrated_size]
  have h0 : (migrate_folder excludedPaths oracle relPath children
      initState).migrated_size = 0 := hgen initState
  refine ⟨rfl, hgen st, h0, ?_⟩
  simp [format_progress_speed, h0, Nat.zero_div]

end OneDrive
